import Mathlib

/-!
Verification development for the ckanext-iaest RDF/dataset mapping layer.

The definitions below are shallow embeddings of the Python source:

- converters.py: iaest_to_ckan, ckan_to_iaest (flat-dict converters)
- profiles.py: the RDFProfile graph accessors (object_value,
  object_value_list, object_value_int, time_interval, publisher,
  license, distribution_format, add_date_triple) and
  EuropeanDCATAPProfile.parse_dataset.

Python dict keys that may be absent or bound to None are modelled with
Option; Python truthiness is made explicit at each use site.  External
collaborators (the CKAN license registry, the group registry, the CKAN
format registry, dateutil date parsing, json.loads) are passed in as
explicit parameters, mirroring the call sites in the source.
-/

namespace Iaest

/-- A Python scalar that can sit in the size/byteSize slots of the
converter dicts: either an int or a string. -/
inductive PyVal where
  | intV (n : Int)
  | strV (s : String)
deriving DecidableEq, Repr

/-- Python truthiness for a PyVal: 0 and the empty string are falsy. -/
def pyTruthy : PyVal → Bool
  | .intV n => n ≠ 0
  | .strV s => s ≠ ""

/-- Is the character one of the whitespace characters stripped by
Python str.strip()? -/
def pyIsSpace (c : Char) : Bool :=
  c = ' ' ∨ c = '\t' ∨ c = '\n' ∨ c = '\r' ∨ c = '\x0b' ∨ c = '\x0c'

/-- Python str.strip(): remove leading and trailing whitespace. -/
def pyStrip (s : String) : String :=
  String.mk (((s.data.dropWhile pyIsSpace).reverse.dropWhile pyIsSpace).reverse)

/-- The Python in operator for a character and a string. -/
def pyInChar (c : Char) (s : String) : Bool :=
  s.data.contains c

/-- Helper for pySplitChar: walk the characters, cutting at the
separator. -/
def pySplitCharAux (sep : Char) : List Char → List Char → List String
  | [], acc => [String.mk acc.reverse]
  | x :: rest, acc =>
    if x = sep then String.mk acc.reverse :: pySplitCharAux sep rest []
    else pySplitCharAux sep rest (x :: acc)

/-- Python str.split with a one character separator: the empty string
yields one empty fragment, n separators yield n plus one fragments. -/
def pySplitChar (sep : Char) (s : String) : List String :=
  pySplitCharAux sep s.data []

/-- Parse a non empty all digit character list as a Nat. -/
def digitsToNat (l : List Char) : Option Nat :=
  if l ≠ [] ∧ l.all Char.isDigit then
    some (l.foldl (fun n c => 10 * n + (c.toNat - 48)) 0)
  else none

/-- Python int(string): strips whitespace, accepts an optional sign
followed by digits, raises ValueError (modelled as none) otherwise. -/
def pyStrToInt (s : String) : Option Int :=
  match (pyStrip s).data with
  | '-' :: rest => (digitsToNat rest).map (fun n => -(n : Int))
  | '+' :: rest => (digitsToNat rest).map Int.ofNat
  | t => (digitsToNat t).map Int.ofNat

/-- Python int() applied to a PyVal (int passes through, string is
parsed); none models a ValueError. -/
def pyValToInt : PyVal → Option Int
  | .intV n => some n
  | .strV s => pyStrToInt s

/-- Python `a or b` on two optional strings: a if truthy, else b. -/
def pyOrOpt (a b : Option String) : Option String :=
  if a.getD "" ≠ "" then a else b

/-- A tag entry of a CKAN dataset dict, i.e. a dict of the form
with a single name key. -/
structure Tag where
  name : String
deriving DecidableEq, Repr

/-- An extras entry of a CKAN dataset dict: a key/value pair whose value
may be None. -/
structure Extra where
  key : String
  value : Option String
deriving DecidableEq, Repr

/-- A resource dict as read and produced by the simple converters
(converters.py).  Absent keys and None values are both modelled as
none, matching the .get based reads in the source. -/
structure Resource where
  name : Option String
  description : Option String
  url : Option String
  format : Option String
  size : Option PyVal
deriving DecidableEq, Repr

/-- The CKAN package dict shape used by the simple converters. -/
structure CkanRecord where
  title : Option String
  notes : Option String
  url : Option String
  maintainer : Option String
  maintainer_email : Option String
  tags : List Tag
  extras : List Extra
  resources : List Resource
deriving DecidableEq, Repr

/-- The publisher slot of an IAEST dict: the source accepts either a
plain string or a dict with name and mbox entries. -/
inductive PublisherVal where
  | pstr (s : String)
  | pobj (name : Option String) (mbox : Option String)
deriving DecidableEq, Repr

/-- A distribution entry of the IAEST JSON shape. -/
structure Distribution where
  title : Option String
  description : Option String
  downloadURL : Option String
  accessURL : Option String
  format : Option String
  byteSize : Option PyVal
  license : Option String
deriving DecidableEq, Repr

/-- The IAEST JSON dict shape handled by the simple converters.  List
valued fields default to the empty list, matching the get calls with a
list default in the source. -/
structure IaestDict where
  title : Option String
  description : Option String
  landingPage : Option String
  keyword : List String
  issued : Option String
  modified : Option String
  identifier : Option String
  publisher : Option PublisherVal
  language : List String
  distribution : List Distribution
deriving DecidableEq, Repr

/-- The IAEST dict with every field absent. -/
def emptyIaest : IaestDict :=
  ⟨none, none, none, [], none, none, none, none, [], []⟩

/-- Name accessor for the publisher dict built by ckan_to_iaest (the
source initialises publisher to an empty dict, so the pobj case is the
one that actually occurs there). -/
def pubGetName : Option PublisherVal → Option String
  | some (.pobj n _) => n
  | _ => none

/-- Mbox accessor for the publisher dict built by ckan_to_iaest. -/
def pubGetMbox : Option PublisherVal → Option String
  | some (.pobj _ m) => m
  | _ => none

/-- One resource of the CKAN record turned into a distribution entry,
as in the final loop of ckan_to_iaest: accessURL takes the resource
url, byteSize takes the size, and a fixed license id is attached. -/
def resourceToDistribution (r : Resource) : Distribution :=
  { title := r.name
    description := r.description
    downloadURL := none
    accessURL := r.url
    format := r.format
    byteSize := r.size
    license := some "cc-by-4.0" }

/-- One step of the extras loop of ckan_to_iaest.  The language branch
calls split on the extra value, which raises AttributeError when the
value is None; that is the only failure point of the converter. -/
def ckanExtraStep (d : IaestDict) (e : Extra) : Except String IaestDict :=
  if e.key = "iaest_issued" then
    .ok { d with issued := e.value }
  else if e.key = "iaest_modified" then
    .ok { d with modified := e.value }
  else if e.key = "language" then
    match e.value with
    | none => .error "AttributeError: NoneType has no attribute split"
    | some v => .ok { d with language := pySplitChar ',' v }
  else if e.key = "iaest_publisher_name" then
    .ok { d with publisher := some (.pobj e.value (pubGetMbox d.publisher)) }
  else if e.key = "iaest_publisher_email" then
    .ok { d with publisher := some (.pobj (pubGetName d.publisher) e.value) }
  else if e.key = "guid" then
    .ok { d with identifier := e.value }
  else
    .ok d

/-- The maintainer fallback applied after the extras loop of
ckan_to_iaest: when no publisher name was found in the extras and the
record has a truthy maintainer, that maintainer (and, when truthy, the
maintainer email) populate the publisher dict. -/
def maintainerFallback (d : IaestDict) (r : CkanRecord) : IaestDict :=
  if (pubGetName d.publisher).getD "" = "" ∧ r.maintainer.getD "" ≠ "" then
    let d := { d with
      publisher := some (.pobj r.maintainer (pubGetMbox d.publisher)) }
    if r.maintainer_email.getD "" ≠ "" then
      { d with publisher := some (.pobj r.maintainer r.maintainer_email) }
    else d
  else d

/-- The extras loop of ckan_to_iaest over the extras entries, stopping
at the first raised error. -/
def ckanExtrasFold (d : IaestDict) : List Extra → Except String IaestDict
  | [] => .ok d
  | e :: rest =>
    match ckanExtraStep d e with
    | .error err => .error err
    | .ok d1 => ckanExtrasFold d1 rest

/-- The dict built by the first half of ckan_to_iaest, before the
extras loop runs: direct field copies, the keyword list, and the empty
publisher dict. -/
def initIaest (r : CkanRecord) : IaestDict :=
  { title := r.title
    description := r.notes
    landingPage := r.url
    keyword := r.tags.map Tag.name
    issued := none
    modified := none
    identifier := none
    publisher := some (.pobj none none)
    language := []
    distribution := [] }

/-- Embedding of converters.ckan_to_iaest.  The only way it can raise
is the split call on a None valued language extra, hence the Except
result. -/
def ckan_to_iaest (r : CkanRecord) : Except String IaestDict :=
  match ckanExtrasFold (initIaest r) r.extras with
  | .error e => .error e
  | .ok d =>
    .ok { maintainerFallback d r with
          distribution := r.resources.map resourceToDistribution }

/-- One distribution of the IAEST dict turned into a resource dict, as
in the final loop of iaest_to_ckan: url is downloadURL or accessURL in
the Python or sense, and size is set only when byteSize is truthy and
parses as an int (ValueError is swallowed). -/
def distributionToResource (dist : Distribution) : Resource :=
  { name := dist.title
    description := dist.description
    url := pyOrOpt dist.downloadURL dist.accessURL
    format := dist.format
    size :=
      match dist.byteSize with
      | some v =>
        if pyTruthy v then
          match pyValToInt v with
          | some n => some (.intV n)
          | none => none
        else none
      | none => none }

/-- The publisher dependent extras entries of iaest_to_ckan: a plain
string publisher yields one name entry; a dict publisher with a truthy
name yields a name entry and an email entry (the latter even when mbox
is absent). -/
def publisherExtras : Option PublisherVal → List Extra
  | some (.pstr s) => [⟨"iaest_publisher_name", some s⟩]
  | some (.pobj n m) =>
    if n.getD "" ≠ "" then
      [⟨"iaest_publisher_name", n⟩, ⟨"iaest_publisher_email", m⟩]
    else []
  | none => []

/-- Embedding of converters.iaest_to_ckan. -/
def iaest_to_ckan (d : IaestDict) : CkanRecord :=
  { title := d.title
    notes := d.description
    url := d.landingPage
    maintainer := none
    maintainer_email := none
    tags := d.keyword.map Tag.mk
    extras :=
      [⟨"iaest_issued", d.issued⟩,
       ⟨"iaest_modified", d.modified⟩,
       ⟨"guid", d.identifier⟩,
       ⟨"miKey", some "Esta es mi KEY"⟩]
      ++ publisherExtras d.publisher
      ++ [⟨"language", some (String.intercalate "," d.language)⟩]
    resources := d.distribution.map distributionToResource }

/-! ## RDF graph model (profiles.py) -/

/-- An RDF node: an IRI reference, a blank node with local identity, or
a literal with optional language tag and optional datatype IRI. -/
inductive Node where
  | iri (s : String)
  | bnode (n : Nat)
  | lit (value : String) (lang : Option String) (datatype : Option String)
deriving DecidableEq, Repr

/-- A subject/predicate/object triple. -/
structure Triple where
  s : Node
  p : Node
  o : Node
deriving DecidableEq, Repr

/-- A graph is a finite collection of triples; the list order is the
iteration order of the underlying store, which the source only relies
on within one graph instance. -/
abbrev Graph := List Triple

/-- All objects for a subject and predicate, in iteration order
(rdflib Graph.objects). -/
def objects (g : Graph) (s p : Node) : List Node :=
  (g.filter (fun t => t.s = s ∧ t.p = p)).map Triple.o

/-- Is the node an IRI reference (isinstance URIRef)? -/
def isIRI : Node → Bool
  | .iri _ => true
  | _ => false

/-- The unicode representation of a node: the lexical value for a
literal, the IRI string for an IRI, and a local label for a blank
node. -/
def nodeStr : Node → String
  | .iri s => s
  | .bnode n => "_:b" ++ Nat.repr n
  | .lit v _ _ => v

/-- Python unicode applied to an optional node: unicode(None) is the
string None. -/
def pyUnicodeOpt : Option Node → String
  | none => "None"
  | some n => nodeStr n

/-- RDFProfile objects helper restricted to the first object
(RDFProfile.object in profiles.py): first object or None. -/
def object (g : Graph) (s p : Node) : Option Node :=
  match objects g s p with
  | [] => none
  | o :: _ => some o

/-- RDFProfile.object_value: unicode of the first object, or the empty
string when there is none. -/
def object_value (g : Graph) (s p : Node) : String :=
  match objects g s p with
  | [] => ""
  | o :: _ => nodeStr o

/-- RDFProfile.object_value_list: unicode of every object. -/
def object_value_list (g : Graph) (s p : Node) : List String :=
  (objects g s p).map nodeStr

/-- RDFProfile.object_value_int: the object value parsed as an int when
non empty; parse failures are swallowed and yield None. -/
def object_value_int (g : Graph) (s p : Node) : Option Int :=
  let v := object_value g s p
  if v ≠ "" then
    match pyStrToInt v with
    | some n => some n
    | none => none
  else none

/-! Vocabulary constants, with the namespace strings exactly as bound in
profiles.py (note that the TIME namespace has no trailing separator,
faithfully kept). -/

/-- Term of the dct namespace. -/
def DCT (s : String) : Node := .iri ("http://purl.org/dc/terms/" ++ s)

/-- Term of the dcat namespace. -/
def DCAT (s : String) : Node := .iri ("http://www.w3.org/ns/dcat#" ++ s)

/-- Term of the adms namespace. -/
def ADMS (s : String) : Node := .iri ("http://www.w3.org/ns/adms#" ++ s)

/-- Term of the foaf namespace. -/
def FOAF (s : String) : Node := .iri ("http://xmlns.com/foaf/0.1/" ++ s)

/-- Term of the owl namespace. -/
def OWL (s : String) : Node := .iri ("http://www.w3.org/2002/07/owl#" ++ s)

/-- Term of the schema.org namespace. -/
def SCHEMA (s : String) : Node := .iri ("http://schema.org/" ++ s)

/-- Term of the time namespace as bound in profiles.py (no trailing
separator in the source). -/
def TIME (s : String) : Node := .iri ("http://www.w3.org/2006/time" ++ s)

/-- Term of the spdx namespace. -/
def SPDX (s : String) : Node := .iri ("http://spdx.org/rdf/terms#" ++ s)

/-- Term of the rdf syntax namespace. -/
def RDFNS (s : String) : Node :=
  .iri ("http://www.w3.org/1999/02/22-rdf-syntax-ns#" ++ s)

/-- Term of the rdfs namespace. -/
def RDFS (s : String) : Node :=
  .iri ("http://www.w3.org/2000/01/rdf-schema#" ++ s)

/-- Term of the xsd namespace (rdflib XSD). -/
def XSD (s : String) : Node :=
  .iri ("http://www.w3.org/2001/XMLSchema#" ++ s)

/-! ## Compound graph accessors -/

/-- The publisher dict produced by RDFProfile.publisher: every field is
assigned on each loop iteration, so none marks a key never written
(no agent at all) and the last agent wins otherwise. -/
structure PublisherDict where
  uri : Option String
  name : Option String
  email : Option String
  url : Option String
  type : Option String
  title : Option String
deriving DecidableEq, Repr

/-- The six assignments of one iteration of the publisher loop. -/
def publisherOfAgent (g : Graph) (agent : Node) : PublisherDict :=
  { uri := some (if isIRI agent then nodeStr agent else "")
    name := some (object_value g agent (FOAF "name"))
    email := some (object_value g agent (FOAF "mbox"))
    url := some (object_value g agent (FOAF "homepage"))
    type := some (object_value g agent (DCT "type"))
    title := some (object_value g agent (DCT "title")) }

/-- RDFProfile.publisher: starts from an empty dict and, for every
agent object, overwrites all six keys. -/
def publisher (g : Graph) (s p : Node) : PublisherDict :=
  (objects g s p).foldl (fun _ agent => publisherOfAgent g agent)
    ⟨none, none, none, none, none, none⟩

/-- Does an interval node carry a truthy schema.org startDate or
endDate value? -/
def schemaHas (g : Graph) (interval : Node) : Prop :=
  object_value g interval (SCHEMA "startDate") ≠ ""
  ∨ object_value g interval (SCHEMA "endDate") ≠ ""

instance (g : Graph) (interval : Node) : Decidable (schemaHas g interval) :=
  inferInstanceAs (Decidable (_ ∨ _))

/-- The W3C time fallback values of one iteration of the time interval
loop: each slot takes the inXSDDateTime value of the first
hasBeginning and hasEnd node, and keeps the (empty) schema.org lookup
result when there is no such node. -/
def w3cPair (g : Graph) (interval : Node) : Option String × Option String :=
  (some (match objects g interval (TIME "hasBeginning") with
         | [] => ""
         | n :: _ => object_value g n (TIME "inXSDDateTime")),
   some (match objects g interval (TIME "hasEnd") with
         | [] => ""
         | n :: _ => object_value g n (TIME "inXSDDateTime")))

/-- The loop of RDFProfile.time_interval over the interval objects,
carrying the start and end slots. -/
def timeIntervalLoop (g : Graph) :
    List Node → Option String × Option String → Option String × Option String
  | [], st => st
  | interval :: rest, _ =>
    let sd := object_value g interval (SCHEMA "startDate")
    let ed := object_value g interval (SCHEMA "endDate")
    if sd ≠ "" ∨ ed ≠ "" then (some sd, some ed)
    else timeIntervalLoop g rest (w3cPair g interval)

/-- RDFProfile.time_interval: schema.org start/end first with an early
return, W3C hasBeginning/hasEnd as fallback, later interval objects
overwriting earlier fallback values. -/
def time_interval (g : Graph) (s p : Node) : Option String × Option String :=
  timeIntervalLoop g (objects g s p) (none, none)

/-- The scan of the license registry items performed by
RDFProfile.license: first entry whose id equals the declared id wins
(the loop breaks there), otherwise two empty strings. -/
def licenseFind : List (String × String) → String → String × String
  | [], _ => ("", "")
  | (lid, ltitle) :: rest, target =>
    if lid = target then (lid, ltitle) else licenseFind rest target

/-- RDFProfile.license: reads the dct:license object value of the
dataset node and scans the (external, ordered) license registry. -/
def license (register : List (String × String)) (g : Graph)
    (dataset_ref : Node) : String × String :=
  licenseFind register (object_value g dataset_ref (DCT "license"))

/-- rdflib Graph.value with its default predicate rdf:value: first such
object, or None. -/
def graphValue (g : Graph) (s : Node) : Option Node :=
  object g s (RDFNS "value")

/-- rdflib Graph.label: first rdfs:label object, or None. -/
def graphLabel (g : Graph) (s : Node) : Option Node :=
  object g s (RDFS "label")

/-- RDFProfile.distribution_format.  The format registry stands for
ckan.lib.helpers.resource_formats(), mapping a key to the display
label stored at index 1 of its entry; ckan_ge_2_3 stands for the
toolkit.check_ckan_version call.  Returns the media type (a string,
empty when not found, since the object_value assignment overwrites the
initial None) and the label (None when never assigned). -/
def distribution_format (g : Graph) (distribution : Node)
    (normalize_ckan_format : Bool) (ckan_ge_2_3 : Bool)
    (format_registry : String → Option String) : String × Option String :=
  let imt0 := object_value g distribution (DCAT "mediaType")
  let st :=
    match object g distribution (DCT "format") with
    | some (.lit v _ _) =>
      if imt0 = "" ∧ pyInChar '/' v then (v, none) else (imt0, some v)
    | some n =>
      if object g n (RDFNS "type") = some (DCT "IMT") then
        ((if imt0 = "" then pyUnicodeOpt (graphValue g n) else imt0),
         some (pyUnicodeOpt (graphLabel g n)))
      else (imt0, none)
    | none => (imt0, none)
  let imt := st.1
  let label := st.2
  if (imt ≠ "" ∨ label.getD "" ≠ "") ∧ normalize_ckan_format ∧ ckan_ge_2_3 then
    match format_registry imt with
    | some l => (imt, some l)
    | none =>
      match label with
      | some lb =>
        match format_registry lb with
        | some l => (imt, some l)
        | none => (imt, label)
      | none => (imt, label)
  else (imt, label)

/-- RDFProfile.add_date_triple.  The parse_date parameter models
dateutil.parser.parse with the default datetime(1, 1, 1, 0, 0, 0)
composed with isoformat(); none models a ValueError, which the source
catches by writing the original string untyped.  The function is
total: no exception escapes. -/
def add_date_triple (parse_date : String → Option String) (g : Graph)
    (s p : Node) (value : Option String) : Graph :=
  match value with
  | none => g
  | some v =>
    if v = "" then g
    else
      match parse_date v with
      | some iso => g ++ [⟨s, p, .lit iso none (some (nodeStr (XSD "dateTime")))⟩]
      | none => g ++ [⟨s, p, .lit v none none⟩]

/-! ## EuropeanDCATAPProfile.parse_dataset -/

/-- Does the string contain a comma (Python in operator on str)? -/
def hasComma (k : String) : Bool := pyInChar ',' k

/-- Split a keyword on commas and strip each fragment, as in the
keyword splitting loop. -/
def splitTrim (k : String) : List String :=
  (pySplitChar ',' k).map pyStrip

/-- Python list.remove: drops the first occurrence of the element (in
the source the element is always present). -/
def pyRemove : List String → String → List String
  | [], _ => []
  | x :: rest, a => if x = a then rest else x :: pyRemove rest a

/-- The in place keyword rewriting of parse_dataset: the comma keywords
are collected first, then each is removed from the list and its
stripped fragments are appended at the end. -/
def processKeywords (ks : List String) : List String :=
  (ks.filter (fun k => hasComma k)).foldl
    (fun acc k => pyRemove acc k ++ splitTrim k) ks

/-- An extras entry of the parsed dataset dict (the values written by
parse_dataset are always strings). -/
structure PExtra where
  key : String
  value : String
deriving DecidableEq, Repr

/-- A groups entry of the parsed dataset dict. -/
structure GroupRef where
  id : String
deriving DecidableEq, Repr

/-- A resource dict built from one distribution node by parse_dataset.
Conditionally written keys are Option valued; url and uri are written
unconditionally. -/
structure PResource where
  name : Option String
  description : Option String
  download_url : Option String
  issued : Option String
  modified : Option String
  status : Option String
  rights : Option String
  license : Option String
  url : Option String
  language : Option String
  documentation : Option String
  conforms_to : Option String
  mimetype : Option String
  format : Option String
  size : Option Int
  hash_algorithm : Option String
  hash : Option String
  uri : String
deriving DecidableEq, Repr

/-- The dataset dict handled by parse_dataset: the four collections are
Option valued so that presence of the key itself is observable. -/
structure ParsedRecord where
  title : Option String
  notes : Option String
  url : Option String
  version : Option String
  maintainer : Option String
  author : Option String
  author_email : Option String
  license_id : Option String
  license_title : Option String
  tags : Option (List Tag)
  extras : Option (List PExtra)
  resources : Option (List PResource)
  groups : Option (List GroupRef)
deriving DecidableEq, Repr

/-- A dataset dict with no keys at all. -/
def emptyRecord : ParsedRecord :=
  ⟨none, none, none, none, none, none, none, none, none,
   none, none, none, none⟩

/-- Assign the value to the key only when the value is truthy,
otherwise keep whatever the dict already had. -/
def setIfNonEmpty (cur : Option String) (v : String) : Option String :=
  if v ≠ "" then some v else cur

/-- The fixed extras table of parse_dataset: local label and predicate,
in source order. -/
def extras_table : List (String × Node) :=
  [("01_IAEST_Tema estadistico", DCAT "tema_estadistico"),
   ("04_IAEST_Unidad de medida", DCAT "unidad_medida"),
   ("06_IAEST_Periodo base", DCAT "periodo_base"),
   ("07_IAEST_Tipo de operacion", DCAT "tipo_operacion"),
   ("08_IAEST_Tipologia de datos de origen", DCAT "tipologia_datos_origen"),
   ("09_IAEST_Fuente", DCAT "fuente"),
   ("11_IAEST_Tratamiento estadistico", DCAT "tratamiento_estadistico"),
   ("5_IAEST_Legislacion UE", DCAT "legislacion_ue"),
   ("Data Dictionary URL0", DCAT "urlDictionary"),
   ("Granularity", DCAT "granularity"),
   ("LangES", DCAT "language"),
   ("Spatial", DCT "spatial"),
   ("TemporalFrom", DCT "temporalFrom"),
   ("TemporalUntil", DCT "temporalUntil"),
   ("nameAragopedia", DCAT "name_aragopedia"),
   ("shortUriAragopedia", DCAT "short_uri_aragopedia"),
   ("typeAragopedia", DCAT "type_aragopedia"),
   ("uriAragopedia", DCAT "uri_aragopedia")]

/-- The constant companion value appended after the data dictionary
url extra. -/
def dataDictMsg : String :=
  "El diccionario del dato se encuentra en la siguiente url"

/-- The extras loop of parse_dataset over the fixed table: a truthy
object value yields one entry, and the data dictionary url key yields
a second constant valued entry. -/
def extrasLoop (g : Graph) (dataset_ref : Node) :
    List (String × Node) → List PExtra
  | [] => []
  | (k, p) :: rest =>
    let v := object_value g dataset_ref p
    (if v ≠ "" then
       ⟨k, v⟩ ::
       (if k = "Data Dictionary URL0" then [⟨"Data Dictionary", dataDictMsg⟩]
        else [])
     else [])
    ++ extrasLoop g dataset_ref rest

/-- The themes loop of parse_dataset.  The group register models
Group.get, returning the internal group id or None; on None the
attribute access group.id raises, which aborts the whole parse. -/
def themeGroups (g : Graph) (group_register : String → Option String) :
    List Node → Except String (List GroupRef)
  | [] => .ok []
  | theme :: rest =>
    let theme_id := object_value g theme (DCT "identifier")
    if theme_id ≠ "" then
      match group_register theme_id with
      | none => .error "AttributeError: NoneType has no attribute id"
      | some gid =>
        match themeGroups g group_register rest with
        | .error e => .error e
        | .ok gs => .ok (⟨gid⟩ :: gs)
    else themeGroups g group_register rest

/-- JSON string escaping as performed by json.dumps on the members of
a list of strings. -/
def jsonEscape (s : String) : String :=
  s.foldl (fun acc c =>
    acc ++
    (if c = '"' then "\\\""
     else if c = '\\' then "\\\\"
     else if c = '\n' then "\\n"
     else if c = '\t' then "\\t"
     else if c = '\r' then "\\r"
     else if c.toNat < 32 then "\\u" ++ (Nat.toDigits 16 c.toNat).asString
     else String.singleton c)) ""

/-- json.dumps of a list of strings, with the default separators. -/
def jsonDumpsList (xs : List String) : String :=
  "[" ++ String.intercalate ", " (xs.map (fun s => "\"" ++ jsonEscape s ++ "\"")) ++ "]"

/-- The checksum loop of parse_dataset: for every spdx:checksum object
a truthy algorithm overwrites hash_algorithm and a truthy checksum
value overwrites hash. -/
def checksumFold (g : Graph) :
    List Node → Option String × Option String → Option String × Option String
  | [], st => st
  | c :: rest, (ha, h) =>
    let a := object_value g c (SPDX "algorithm")
    let v := object_value g c (SPDX "checksumValue")
    checksumFold g rest
      ((if a ≠ "" then some a else ha), (if v ≠ "" then some v else h))

/-- The external collaborators and configuration of parse_dataset:
compatibility mode flag, license registry items, Group.get, the
normalize format config flag, the CKAN version check, the CKAN format
registry, and json.loads of a JSON list of strings (used only by the
compatibility pass). -/
structure ParseConfig where
  compatibility_mode : Bool
  license_register : List (String × String)
  group_register : String → Option String
  normalize_ckan_format : Bool
  ckan_ge_2_3 : Bool
  format_registry : String → Option String
  jsonListLoads : String → Option (List String)

/-- One resource dict built from one distribution node, following the
distributions loop of parse_dataset. -/
def parseResource (cfg : ParseConfig) (g : Graph) (distribution : Node) :
    PResource :=
  let fmt := distribution_format g distribution cfg.normalize_ckan_format
    cfg.ckan_ge_2_3 cfg.format_registry
  let imt := fmt.1
  let label := fmt.2
  let cks := checksumFold g (objects g distribution (SPDX "checksum"))
    (none, none)
  { name := setIfNonEmpty none (object_value g distribution (DCT "title"))
    description :=
      setIfNonEmpty none (object_value g distribution (DCT "description"))
    download_url :=
      setIfNonEmpty none (object_value g distribution (DCAT "downloadURL"))
    issued := setIfNonEmpty none (object_value g distribution (DCT "issued"))
    modified :=
      setIfNonEmpty none (object_value g distribution (DCT "modified"))
    status := setIfNonEmpty none (object_value g distribution (ADMS "status"))
    rights := setIfNonEmpty none (object_value g distribution (DCT "rights"))
    license :=
      setIfNonEmpty none (object_value g distribution (DCT "license"))
    url :=
      some (let a := object_value g distribution (DCAT "accessURL")
            if a ≠ "" then a
            else object_value g distribution (DCAT "downloadURL"))
    language :=
      match object_value_list g distribution (DCT "language") with
      | [] => none
      | vs => some (jsonDumpsList vs)
    documentation :=
      match object_value_list g distribution (FOAF "page") with
      | [] => none
      | vs => some (jsonDumpsList vs)
    conforms_to :=
      match object_value_list g distribution (DCT "conformsTo") with
      | [] => none
      | vs => some (jsonDumpsList vs)
    mimetype := if imt ≠ "" then some imt else none
    format :=
      if label.getD "" ≠ "" then label
      else if imt ≠ "" then some imt else none
    size := object_value_int g distribution (DCAT "byteSize")
    hash_algorithm := cks.1
    hash := cks.2
    uri := if isIRI distribution then nodeStr distribution else "" }

/-- One step of the compatibility mode pass over the extras: specific
keys get the dcat prefix, and a language extra has its value reparsed
from JSON and rewritten as a sorted comma joined string (a json.loads
failure there would propagate). -/
def compatExtra (jsonListLoads : String → Option (List String))
    (e : PExtra) : Except String PExtra :=
  let e :=
    if e.key = "issued" ∨ e.key = "modified" ∨ e.key = "publisher_name"
       ∨ e.key = "publisher_email" then
      { e with key := "dcat_" ++ e.key }
    else e
  if e.key = "language" then
    match jsonListLoads e.value with
    | some items =>
      .ok { e with
            value := String.intercalate "," (items.mergeSort (· ≤ ·)) }
    | none => .error "ValueError: json.loads"
  else .ok e

/-- The compatibility mode pass over the extras entries, stopping at
the first raised error. -/
def compatFold (jsonListLoads : String → Option (List String)) :
    List PExtra → Except String (List PExtra)
  | [] => .ok []
  | e :: rest =>
    match compatExtra jsonListLoads e with
    | .error err => .error err
    | .ok e' =>
      match compatFold jsonListLoads rest with
      | .error err => .error err
      | .ok l => .ok (e' :: l)

/-- Embedding of EuropeanDCATAPProfile.parse_dataset.  The pure field
computations follow the source order; the two fallible steps (the
themes loop and the compatibility pass, in that order) drive the
Except result.  In the source the url key is first written from
dcat:landingPage and then unconditionally overwritten with the
publisher url, so only the latter is observable in the result. -/
def parse_dataset (cfg : ParseConfig) (g : Graph)
    (dataset_dict : ParsedRecord) (dataset_ref : Node) :
    Except String ParsedRecord :=
  let keywords := processKeywords (object_value_list g dataset_ref (DCAT "keyword"))
  let tags := keywords.map Tag.mk
  let title := setIfNonEmpty dataset_dict.title
    (object_value g dataset_ref (DCT "title"))
  let notes := setIfNonEmpty dataset_dict.notes
    (object_value g dataset_ref (DCT "description"))
  let version1 := setIfNonEmpty dataset_dict.version
    (object_value g dataset_ref (OWL "versionInfo"))
  let version :=
    if version1.getD "" = "" then
      setIfNonEmpty version1 (object_value g dataset_ref (ADMS "version"))
    else version1
  let pub := publisher g dataset_ref (DCT "publisher")
  let extras1 := extrasLoop g dataset_ref extras_table
  let lic := license cfg.license_register g dataset_ref
  match themeGroups g cfg.group_register (objects g dataset_ref (DCAT "theme")) with
  | .error e => .error e
  | .ok groups =>
    let resources :=
      (objects g dataset_ref (DCAT "distribution")).map (parseResource cfg g)
    match
      (if cfg.compatibility_mode then compatFold cfg.jsonListLoads extras1
       else .ok extras1 : Except String (List PExtra)) with
    | .error e => .error e
    | .ok extras =>
      .ok { dataset_dict with
            title := title
            notes := notes
            url := pub.url
            version := version
            maintainer := pub.title
            author := pub.title
            author_email :=
              some (object_value g dataset_ref (DCAT "author_email"))
            license_id := some lic.1
            license_title := some lic.2
            tags := some tags
            extras := some extras
            resources := some resources
            groups := some groups }

/-- Concatenation of the split fragments of a list of keywords. -/
def flatSplit : List String → List String
  | [] => []
  | k :: rest => splitTrim k ++ flatSplit rest

/-- One step of the keyword rewriting fold. -/
def kwStep (acc : List String) (k : String) : List String :=
  pyRemove acc k ++ splitTrim k

/-- Is an Except value an error? -/
def isError : Except String α → Bool
  | .error _ => true
  | .ok _ => false

/-- Projection of a parse result onto the tags key (None both for a
missing key and for a raised error). -/
def tagsOf : Except String ParsedRecord → Option (List Tag)
  | .ok r => r.tags
  | .error _ => none

/-- Does a resource size survive the converter round trip: absent, or
an int other than zero (zero is falsy and gets dropped, a numeric
string is turned into an int, a non numeric string is dropped)? -/
def sizeOkB : Option PyVal → Bool
  | none => true
  | some (.intV n) => n ≠ 0
  | some (.strV _) => false

/-- The extras keys recognised by the simple converters. -/
def recognizedExtraKeys : List String :=
  ["iaest_issued", "iaest_modified", "language",
   "iaest_publisher_name", "iaest_publisher_email", "guid"]

/-- The label precedence exactly as the specification words it: a
format literal that does not contain a slash, else the label of a
typed IMT format node, else nothing.  Written from the claim text, to
be compared against distribution_format. -/
def spec_label (g : Graph) (distribution : Node) : Option String :=
  match object g distribution (DCT "format") with
  | some (.lit v _ _) => if ¬ pyInChar '/' v then some v else none
  | some n =>
    if object g n (RDFNS "type") = some (DCT "IMT") then
      some (pyUnicodeOpt (graphLabel g n))
    else none
  | none => none

/-- The media type precedence actually implemented by
distribution_format, written tier by tier: the mediaType literal
value, else a slash containing format literal, else the rdf value of a
typed IMT format node, else the empty string. -/
def code_imt (g : Graph) (distribution : Node) : String :=
  let m := object_value g distribution (DCAT "mediaType")
  if m ≠ "" then m
  else
    match object g distribution (DCT "format") with
    | some (.lit v _ _) => if pyInChar '/' v then v else ""
    | some n =>
      if object g n (RDFNS "type") = some (DCT "IMT") then
        pyUnicodeOpt (graphValue g n)
      else ""
    | none => ""

/-- The label precedence actually implemented by distribution_format:
any format literal becomes the label unless the media type slot is
still empty and the literal contains a slash (in which case the
literal is used as the media type instead); otherwise the label of a
typed IMT format node. -/
def code_label (g : Graph) (distribution : Node) : Option String :=
  let m := object_value g distribution (DCAT "mediaType")
  match object g distribution (DCT "format") with
  | some (.lit v _ _) =>
    if m = "" ∧ pyInChar '/' v then none else some v
  | some n =>
    if object g n (RDFNS "type") = some (DCT "IMT") then
      some (pyUnicodeOpt (graphLabel g n))
    else none
  | none => none

/-! ### Concrete inputs used by examples, counterexamples and
witnesses -/

/-- A dataset node. -/
def dsRef : Node := .iri "http://example.org/ds"

/-- A distribution node. -/
def distRef : Node := .iri "http://example.org/dist"

/-- A parse configuration with empty registries and no compatibility
mode. -/
def cfg0 : ParseConfig :=
  { compatibility_mode := false
    license_register := []
    group_register := fun _ => none
    normalize_ckan_format := false
    ckan_ge_2_3 := true
    format_registry := fun _ => none
    jsonListLoads := fun _ => none }

/-- The configuration above with compatibility mode switched on. -/
def cfgCompat : ParseConfig := { cfg0 with compatibility_mode := true }

/-- A graph with the keywords of the keyword splitting example. -/
def gkw : Graph :=
  [⟨dsRef, DCAT "keyword", .lit "a,b" none none⟩,
   ⟨dsRef, DCAT "keyword", .lit "c" none none⟩]

/-- A graph declaring the license cc-by on the dataset node. -/
def glic : Graph := [⟨dsRef, DCT "license", .iri "cc-by"⟩]

/-- A graph with a theme node whose identifier matches no group. -/
def gtheme : Graph :=
  [⟨dsRef, DCAT "theme", .bnode 5⟩,
   ⟨.bnode 5, DCT "identifier", .lit "gX" none none⟩]

/-- A graph giving a distribution both a mediaType literal and a slash
containing format literal. -/
def gfmt : Graph :=
  [⟨distRef, DCAT "mediaType", .lit "text/csv" none none⟩,
   ⟨distRef, DCT "format", .lit "app/x" none none⟩]

/-- A graph with two interval nodes carrying only W3C time data. -/
def gti : Graph :=
  [⟨dsRef, DCT "temporal", .bnode 1⟩,
   ⟨dsRef, DCT "temporal", .bnode 2⟩,
   ⟨.bnode 1, TIME "hasBeginning", .bnode 11⟩,
   ⟨.bnode 11, TIME "inXSDDateTime", .lit "2001" none none⟩,
   ⟨.bnode 2, TIME "hasBeginning", .bnode 21⟩,
   ⟨.bnode 21, TIME "inXSDDateTime", .lit "2002" none none⟩]

/-- A graph with one blank publisher agent carrying only a name. -/
def gpub : Graph :=
  [⟨dsRef, DCT "publisher", .bnode 0⟩,
   ⟨.bnode 0, FOAF "name", .lit "Org" none none⟩]

/-- A date parser standing for dateutil: accepts one fixed date string
and rejects everything else. -/
def pdEx : String → Option String :=
  fun s => if s = "2013" then some "2013-01-01T00:00:00" else none

/-- The literal source dict of the converter round trip example. -/
def exC1_src : IaestDict :=
  { emptyIaest with
    title := some "T"
    distribution :=
      [{ title := some "D", description := none, downloadURL := none,
         accessURL := some "http://x", format := none,
         byteSize := some (.strV "120"), license := none }] }

/-- A record whose only resource has size zero. -/
def exC1_sizeZero : CkanRecord :=
  { title := none, notes := none, url := none, maintainer := none,
    maintainer_email := none, tags := [], extras := [],
    resources := [{ name := none, description := none, url := none,
                    format := none, size := some (.intV 0) }] }

/-- A record whose language extra carries a None value. -/
def exC1_langNone : CkanRecord :=
  { title := none, notes := none, url := none, maintainer := none,
    maintainer_email := none, tags := [],
    extras := [⟨"language", none⟩], resources := [] }

/-- A record with recognised extras only, string valued language, and a
non zero resource size. -/
def exC1_good : CkanRecord :=
  { title := some "T", notes := some "N", url := some "U",
    maintainer := some "M", maintainer_email := none,
    tags := [⟨"t1"⟩, ⟨"t2"⟩],
    extras := [⟨"guid", some "g1"⟩, ⟨"language", some "en,es"⟩],
    resources := [{ name := some "R", description := none,
                    url := some "http://r", format := some "CSV",
                    size := some (.intV 5) }] }

/-! ## Helper lemmas -/

theorem kwStep_cons_of_ne (x : String) (acc : List String) (c : String)
    (hne : x ≠ c) : kwStep (x :: acc) c = x :: kwStep acc c := by
  simp [kwStep, pyRemove, hne]

theorem foldl_kwStep_cons (cs : List String) (x : String) (acc : List String)
    (hx : hasComma x = false) (hcs : ∀ c ∈ cs, hasComma c = true) :
    cs.foldl kwStep (x :: acc) = x :: cs.foldl kwStep acc := by
  induction cs generalizing acc with
  | nil => rfl
  | cons c rest ih =>
    have hc : hasComma c = true := hcs c (by simp)
    have hne : x ≠ c := by
      intro h
      rw [h] at hx
      rw [hc] at hx
      exact absurd hx (by simp)
    rw [List.foldl_cons, List.foldl_cons, kwStep_cons_of_ne x acc c hne]
    exact ih (kwStep acc c) (fun c hmem => hcs c (by simp [hmem]))

theorem foldl_kwStep_split (ks tf : List String) :
    (ks.filter (fun k => hasComma k)).foldl kwStep (ks ++ tf) =
      ks.filter (fun k => ¬ hasComma k) ++ tf
        ++ flatSplit (ks.filter (fun k => hasComma k)) := by
  induction ks generalizing tf with
  | nil => simp [flatSplit]
  | cons k rest ih =>
    by_cases hk : hasComma k = true
    · have hfilter :
          (k :: rest).filter (fun k => hasComma k) =
            k :: rest.filter (fun k => hasComma k) := by
        simp [List.filter, hk]
      have hfilterneg :
          (k :: rest).filter (fun k => ¬ hasComma k) =
            rest.filter (fun k => ¬ hasComma k) := by
        simp [List.filter, hk]
      rw [hfilter, hfilterneg, List.foldl_cons]
      have hstep : kwStep ((k :: rest) ++ tf) k = rest ++ (tf ++ splitTrim k) := by
        simp [kwStep, pyRemove]
      rw [hstep, ih (tf ++ splitTrim k)]
      simp [flatSplit]
    · have hk' : hasComma k = false := by
        cases h : hasComma k with
        | false => rfl
        | true => exact absurd h hk
      have hfilter :
          (k :: rest).filter (fun k => hasComma k) =
            rest.filter (fun k => hasComma k) := by
        simp [List.filter, hk']
      have hfilterneg :
          (k :: rest).filter (fun k => ¬ hasComma k) =
            k :: rest.filter (fun k => ¬ hasComma k) := by
        simp [List.filter, hk']
      rw [hfilter, hfilterneg]
      have hcons : (k :: rest) ++ tf = k :: (rest ++ tf) := rfl
      rw [hcons]
      rw [foldl_kwStep_cons _ k (rest ++ tf) hk'
        (fun c hc => (List.mem_filter.mp hc).2)]
      rw [ih tf]
      rfl

/-- The keyword rewriting loop is equivalent to keeping the comma free
keywords first, in order, and appending the stripped fragments of the
comma keywords, in order. -/
theorem processKeywords_eq (ks : List String) :
    processKeywords ks =
      ks.filter (fun k => ¬ hasComma k)
        ++ flatSplit (ks.filter (fun k => hasComma k)) := by
  have h := foldl_kwStep_split ks []
  simpa [processKeywords, kwStep] using h

theorem isError_iff {x : Except String α} :
    isError x = true ↔ ∃ e, x = .error e := by
  cases x with
  | error e => simp [isError]
  | ok a => simp [isError]

/-! ### time_interval lemmas -/

theorem timeIntervalLoop_all_skip (g : Graph) (l : List Node)
    (st : Option String × Option String)
    (hall : ∀ j ∈ l, ¬ schemaHas g j) (hne : l ≠ []) :
    timeIntervalLoop g l st = w3cPair g (l.getLast hne) := by
  induction l generalizing st with
  | nil => exact absurd rfl hne
  | cons i rest ih =>
    have hi : ¬ schemaHas g i := hall i (by simp)
    have hcond : ¬ (object_value g i (SCHEMA "startDate") ≠ ""
        ∨ object_value g i (SCHEMA "endDate") ≠ "") := hi
    rw [timeIntervalLoop]
    simp only [hcond, if_false]
    cases rest with
    | nil => rfl
    | cons j rest' =>
      rw [ih (w3cPair g i)
        (fun x hx => hall x (List.mem_cons_of_mem i hx)) (by simp)]
      simp [List.getLast_cons]

theorem timeIntervalLoop_first_schema (g : Graph) (l1 : List Node) (i : Node)
    (l2 : List Node) (st : Option String × Option String)
    (hskip : ∀ j ∈ l1, ¬ schemaHas g j) (hi : schemaHas g i) :
    timeIntervalLoop g (l1 ++ i :: l2) st =
      (some (object_value g i (SCHEMA "startDate")),
       some (object_value g i (SCHEMA "endDate"))) := by
  induction l1 generalizing st with
  | nil =>
    have hcond : object_value g i (SCHEMA "startDate") ≠ ""
        ∨ object_value g i (SCHEMA "endDate") ≠ "" := hi
    simp [timeIntervalLoop, hcond]
  | cons j rest ih =>
    have hj : ¬ schemaHas g j := hskip j (by simp)
    have hcond : ¬ (object_value g j (SCHEMA "startDate") ≠ ""
        ∨ object_value g j (SCHEMA "endDate") ≠ "") := hj
    rw [List.cons_append, timeIntervalLoop]
    simp only [hcond, if_false]
    exact ih _ (fun x hx => hskip x (by simp [hx]))

/-! ### publisher lemma -/

theorem foldl_replace_last {α β : Type} (f : α → β) (init : β) (l : List α)
    (hne : l ≠ []) :
    l.foldl (fun _ a => f a) init = f (l.getLast hne) := by
  induction l generalizing init with
  | nil => exact absurd rfl hne
  | cons a rest ih =>
    cases rest with
    | nil => simp [List.getLast]
    | cons b rest' =>
      rw [List.foldl_cons, ih (f a) (by simp)]
      congr 1

/-! ### themeGroups lemmas -/

theorem themeGroups_error_iff (g : Graph) (reg : String → Option String)
    (ts : List Node) :
    isError (themeGroups g reg ts) = true ↔
      ∃ t ∈ ts, object_value g t (DCT "identifier") ≠ ""
        ∧ reg (object_value g t (DCT "identifier")) = none := by
  induction ts with
  | nil => simp [themeGroups, isError]
  | cons t rest ih =>
    rw [themeGroups]
    by_cases hid : object_value g t (DCT "identifier") ≠ ""
    · rw [if_pos hid]
      cases hreg : reg (object_value g t (DCT "identifier")) with
      | none =>
        simp only [isError]
        constructor
        · intro _
          exact ⟨t, by simp, hid, hreg⟩
        · intro _
          trivial
      | some gid =>
        cases hrest : themeGroups g reg rest with
        | error e =>
          simp only [isError]
          constructor
          · intro _
            have := ih.mp (by rw [hrest]; rfl)
            obtain ⟨u, hu, h1, h2⟩ := this
            exact ⟨u, by simp [hu], h1, h2⟩
          · intro _
            trivial
        | ok gs =>
          simp only [isError]
          constructor
          · intro h
            exact absurd h (by simp)
          · rintro ⟨u, hu, h1, h2⟩
            rcases List.mem_cons.mp hu with h | h
            · subst h
              rw [hreg] at h2
              exact absurd h2 (by simp)
            · have : isError (themeGroups g reg rest) = true :=
                ih.mpr ⟨u, h, h1, h2⟩
              rw [hrest] at this
              simp [isError] at this
    · rw [if_neg hid]
      rw [ih]
      constructor
      · rintro ⟨u, hu, h1, h2⟩
        exact ⟨u, by simp [hu], h1, h2⟩
      · rintro ⟨u, hu, h1, h2⟩
        rcases List.mem_cons.mp hu with h | h
        · subst h
          exact absurd h1 hid
        · exact ⟨u, h, h1, h2⟩

/-! ### compatibility pass lemmas -/

theorem compatExtra_ok (js : String → Option (List String)) (e : PExtra)
    (h : e.key ≠ "language") : ∃ e', compatExtra js e = .ok e' := by
  rw [compatExtra]
  by_cases hr : e.key = "issued" ∨ e.key = "modified"
      ∨ e.key = "publisher_name" ∨ e.key = "publisher_email"
  · simp only [hr, if_true]
    have hne : "dcat_" ++ e.key ≠ "language" := by
      rcases hr with h1 | h1 | h1 | h1 <;> rw [h1] <;> decide
    simp only [hne, if_false]
    exact ⟨_, rfl⟩
  · simp only [hr, if_false]
    simp only [h, if_false]
    exact ⟨_, rfl⟩

theorem compatFold_ok (js : String → Option (List String)) (l : List PExtra)
    (h : ∀ e ∈ l, e.key ≠ "language") :
    ∃ l', compatFold js l = .ok l' := by
  induction l with
  | nil => exact ⟨[], rfl⟩
  | cons e rest ih =>
    obtain ⟨e', he⟩ := compatExtra_ok js e (h e (by simp))
    obtain ⟨l', hl⟩ := ih (fun x hx => h x (by simp [hx]))
    refine ⟨e' :: l', ?_⟩
    rw [compatFold, he, hl]

/-! ### extras table key lemmas -/

theorem extrasLoop_keys (g : Graph) (ref : Node) (table : List (String × Node)) :
    ∀ e ∈ extrasLoop g ref table,
      e.key ∈ table.map Prod.fst ∨ e.key = "Data Dictionary" := by
  induction table with
  | nil => intro e he; simp [extrasLoop] at he
  | cons kv rest ih =>
    intro e he
    rw [extrasLoop] at he
    rcases List.mem_append.mp he with h | h
    · by_cases hv : object_value g ref kv.2 ≠ ""
      · rw [if_pos hv] at h
        rcases List.mem_cons.mp h with h1 | h1
        · left; rw [h1]; simp
        · by_cases hdd : kv.1 = "Data Dictionary URL0"
          · rw [if_pos hdd] at h1
            rcases List.mem_singleton.mp h1 with h2
            right; rw [h2]
          · rw [if_neg hdd] at h1
            simp at h1
      · rw [if_neg hv] at h
        simp at h
    · rcases ih e h with h1 | h1
      · left; simp [h1]
      · right; exact h1

theorem extras1_key_ne_language (g : Graph) (ref : Node) :
    ∀ e ∈ extrasLoop g ref extras_table, e.key ≠ "language" := by
  intro e he
  rcases extrasLoop_keys g ref extras_table e he with h | h
  · intro hl
    rw [hl] at h
    revert h
    decide
  · intro hl
    rw [hl] at h
    exact absurd h (by decide)

/-! ### converter lemmas -/

theorem ckanExtraStep_fields (d : IaestDict) (e : Extra) (d' : IaestDict)
    (h : ckanExtraStep d e = .ok d') :
    d'.title = d.title ∧ d'.description = d.description
      ∧ d'.landingPage = d.landingPage ∧ d'.keyword = d.keyword
      ∧ d'.distribution = d.distribution := by
  rw [ckanExtraStep] at h
  split at h
  · cases h; exact ⟨rfl, rfl, rfl, rfl, rfl⟩
  · split at h
    · cases h; exact ⟨rfl, rfl, rfl, rfl, rfl⟩
    · split at h
      · split at h
        · cases h
        · cases h; exact ⟨rfl, rfl, rfl, rfl, rfl⟩
      · split at h
        · cases h; exact ⟨rfl, rfl, rfl, rfl, rfl⟩
        · split at h
          · cases h; exact ⟨rfl, rfl, rfl, rfl, rfl⟩
          · split at h
            · cases h; exact ⟨rfl, rfl, rfl, rfl, rfl⟩
            · cases h; exact ⟨rfl, rfl, rfl, rfl, rfl⟩

theorem ckanFold_fields (es : List Extra) (d d' : IaestDict)
    (h : ckanExtrasFold d es = .ok d') :
    d'.title = d.title ∧ d'.description = d.description
      ∧ d'.landingPage = d.landingPage ∧ d'.keyword = d.keyword
      ∧ d'.distribution = d.distribution := by
  induction es generalizing d with
  | nil =>
    rw [ckanExtrasFold] at h
    cases h
    exact ⟨rfl, rfl, rfl, rfl, rfl⟩
  | cons e rest ih =>
    rw [ckanExtrasFold] at h
    cases hstep : ckanExtraStep d e with
    | error err =>
      rw [hstep] at h
      cases h
    | ok d1 =>
      rw [hstep] at h
      obtain ⟨h1, h2, h3, h4, h5⟩ := ih d1 h
      obtain ⟨g1, g2, g3, g4, g5⟩ := ckanExtraStep_fields d e d1 hstep
      exact ⟨h1.trans g1, h2.trans g2, h3.trans g3, h4.trans g4, h5.trans g5⟩

theorem ckanExtraStep_ok (d : IaestDict) (e : Extra)
    (h : e.key = "language" → e.value ≠ none) :
    ∃ d', ckanExtraStep d e = .ok d' := by
  rw [ckanExtraStep]
  split
  · exact ⟨_, rfl⟩
  · split
    · exact ⟨_, rfl⟩
    · split
      · rename_i hlang
        cases hv : e.value with
        | none => exact absurd hv (h hlang)
        | some v => exact ⟨_, rfl⟩
      · split
        · exact ⟨_, rfl⟩
        · split
          · exact ⟨_, rfl⟩
          · split
            · exact ⟨_, rfl⟩
            · exact ⟨_, rfl⟩

theorem ckanFold_ok (es : List Extra) (d : IaestDict)
    (h : ∀ e ∈ es, e.key = "language" → e.value ≠ none) :
    ∃ d', ckanExtrasFold d es = .ok d' := by
  induction es generalizing d with
  | nil => exact ⟨d, rfl⟩
  | cons e rest ih =>
    obtain ⟨d1, hd1⟩ := ckanExtraStep_ok d e (h e (by simp))
    obtain ⟨d', hd'⟩ := ih d1 (fun x hx => h x (by simp [hx]))
    refine ⟨d', ?_⟩
    rw [ckanExtrasFold, hd1]
    exact hd'

theorem maintainerFallback_fields (d : IaestDict) (r : CkanRecord) :
    (maintainerFallback d r).title = d.title
      ∧ (maintainerFallback d r).description = d.description
      ∧ (maintainerFallback d r).landingPage = d.landingPage
      ∧ (maintainerFallback d r).keyword = d.keyword := by
  rw [maintainerFallback]
  split
  · split
    · exact ⟨rfl, rfl, rfl, rfl⟩
    · exact ⟨rfl, rfl, rfl, rfl⟩
  · exact ⟨rfl, rfl, rfl, rfl⟩

theorem roundTripResource (res : Resource) (h : sizeOkB res.size = true) :
    (distributionToResource (resourceToDistribution res)).url = res.url
      ∧ (distributionToResource (resourceToDistribution res)).format = res.format
      ∧ (distributionToResource (resourceToDistribution res)).size = res.size := by
  refine ⟨?_, rfl, ?_⟩
  · simp [distributionToResource, resourceToDistribution, pyOrOpt]
  · cases hs : res.size with
    | none => simp [distributionToResource, resourceToDistribution, hs]
    | some v =>
      cases v with
      | intV n =>
        rw [hs] at h
        simp only [sizeOkB, decide_eq_true_eq] at h
        simp [distributionToResource, resourceToDistribution, hs, pyTruthy,
          pyValToInt, h]
      | strV sv =>
        rw [hs] at h
        simp [sizeOkB] at h

theorem roundTripResources (rs : List Resource)
    (h : ∀ res ∈ rs, sizeOkB res.size = true) :
    List.Forall₂
      (fun a b => a.url = b.url ∧ a.format = b.format ∧ a.size = b.size)
      ((rs.map resourceToDistribution).map distributionToResource) rs := by
  induction rs with
  | nil => simp
  | cons res rest ih =>
    simp only [List.map_cons]
    exact List.Forall₂.cons (roundTripResource res (h res (by simp)))
      (ih (fun x hx => h x (by simp [hx])))

theorem licenseFind_eq_find (l : List (String × String)) (target : String) :
    licenseFind l target =
      match l.find? (fun e => e.1 = target) with
      | some e => e
      | none => ("", "") := by
  induction l with
  | nil => rfl
  | cons e rest ih =>
    obtain ⟨lid, ltitle⟩ := e
    by_cases he : lid = target
    · simp [licenseFind, List.find?, he]
    · simp only [licenseFind, if_neg he, ih]
      have : (decide (lid = target)) = false := by
        simp [he]
      simp [List.find?, this]

/-! ### parse_dataset shape lemma -/

theorem parse_dataset_ok_shape (cfg : ParseConfig) (g : Graph)
    (d : ParsedRecord) (ref : Node) (r : ParsedRecord)
    (h : parse_dataset cfg g d ref = .ok r) :
    r.tags = some
      ((processKeywords (object_value_list g ref (DCAT "keyword"))).map Tag.mk)
      ∧ r.extras.isSome ∧ r.resources.isSome ∧ r.groups.isSome := by
  simp only [parse_dataset] at h
  split at h
  · exact Except.noConfusion h
  · split at h
    · exact Except.noConfusion h
    · cases h
      exact ⟨rfl, rfl, rfl, rfl⟩

/-! ## Claims -/

/-- C10: for every input dict, the extras of iaest_to_ckan contain
entries keyed iaest_issued, iaest_modified, guid, miKey and language
in that relative order (with only the publisher entries possibly in
between), even when the corresponding source fields are absent, and
the miKey entry with the fixed value is appended unconditionally; on
the empty dict the values are None or the empty string. -/
theorem C10_extras_shape :
    (∀ d : IaestDict, ∃ mid,
      (iaest_to_ckan d).extras =
        [⟨"iaest_issued", d.issued⟩, ⟨"iaest_modified", d.modified⟩,
         ⟨"guid", d.identifier⟩, ⟨"miKey", some "Esta es mi KEY"⟩]
        ++ mid
        ++ [⟨"language", some (String.intercalate "," d.language)⟩])
    ∧ (iaest_to_ckan emptyIaest).extras =
        [⟨"iaest_issued", none⟩, ⟨"iaest_modified", none⟩, ⟨"guid", none⟩,
         ⟨"miKey", some "Esta es mi KEY"⟩, ⟨"language", some ""⟩] := by
  constructor
  · intro d
    exact ⟨publisherExtras d.publisher, rfl⟩
  · rfl

/-- C4: license resolution is deterministic: the result is the first
registry entry whose id equals the declared dct:license object value,
and the pair of empty strings when no entry matches; in particular a
registry with cc-by and cc0 and a declared IRI cc-by yields exactly
cc-by with its title, and a graph with no matching declaration yields
two empty strings. -/
theorem C4_license_first_match :
    (∀ (reg : List (String × String)) (g : Graph) (ref : Node),
      license reg g ref =
        match reg.find? (fun e => e.1 = object_value g ref (DCT "license")) with
        | some e => e
        | none => ("", ""))
    ∧ license [("cc-by", "t1"), ("cc0", "t2")] glic dsRef = ("cc-by", "t1")
    ∧ license [("cc-by", "t1"), ("cc0", "t2")] ([] : Graph) dsRef = ("", "") := by
  refine ⟨?_, by decide, by decide⟩
  intro reg g ref
  exact licenseFind_eq_find reg (object_value g ref (DCT "license"))

/-- C5: for every non empty value written in date mode, a successful
lenient date parse (modelled by the parse parameter, which stands for
dateutil with the year 1 default) adds one triple with the ISO
dateTime literal typed xsd:dateTime, and a failed parse adds the exact
original string as an untyped literal; add_date_triple is total, so no
exception escapes in either case. -/
theorem C5_date_fallback (pd : String → Option String) (g : Graph)
    (s p : Node) (v : String) (h : v ≠ "") :
    (∀ iso, pd v = some iso →
      add_date_triple pd g s p (some v) =
        g ++ [⟨s, p, .lit iso none (some (nodeStr (XSD "dateTime")))⟩])
    ∧ (pd v = none →
      add_date_triple pd g s p (some v) =
        g ++ [⟨s, p, .lit v none none⟩]) := by
  constructor
  · intro iso hiso
    simp [add_date_triple, h, hiso]
  · intro hnone
    simp [add_date_triple, h, hnone]

/-- Witness for C5 at a concrete unparsable value: the raw string x is
written untyped. -/
theorem C5_witness :
    add_date_triple pdEx [] (Node.iri "http://s") (DCT "issued") (some "x") =
      [⟨Node.iri "http://s", DCT "issued", .lit "x" none none⟩] := by
  have h := (C5_date_fallback pdEx [] (Node.iri "http://s") (DCT "issued") "x"
    (by decide)).2 (by decide)
  simpa using h

/-- C7 counterexample: with a mediaType literal present and a slash
containing format literal, the code returns that format literal as the
label, while the claimed label rule (a format literal that does not
contain a slash, else a typed IMT label) yields no label at all. -/
theorem C7_counterexample :
    (distribution_format gfmt distRef false true (fun _ => none)).2 =
      some "app/x"
    ∧ spec_label gfmt distRef = none := by
  exact ⟨by decide, by decide⟩

/-- C7 amended: with normalization off, the media type follows the
claimed three tier precedence (mediaType literal, slash containing
format literal, typed IMT value), and the label is any format literal
unless the media type slot is still empty and the literal contains a
slash, else the label of a typed IMT format node; both pass through
unchanged. -/
theorem C7_amended (g : Graph) (distribution : Node) (c : Bool)
    (reg : String → Option String) :
    distribution_format g distribution false c reg =
      (code_imt g distribution, code_label g distribution) := by
  rw [distribution_format, code_imt, code_label]
  simp only [Bool.false_eq_true, and_false, false_and, if_false]
  cases hfmt : object g distribution (DCT "format") with
  | none =>
    by_cases hm : object_value g distribution (DCAT "mediaType") ≠ ""
    · simp [hm]
    · simp at hm
      simp [hm]
  | some n =>
    cases n with
    | lit v lang dt =>
      by_cases hm : object_value g distribution (DCAT "mediaType") = ""
      · by_cases hs : pyInChar '/' v
        · simp [hm, hs]
        · simp [hm, hs]
      · by_cases hs : pyInChar '/' v
        · simp [hm, hs]
        · simp [hm, hs]
    | iri u =>
      by_cases ht : object g (Node.iri u) (RDFNS "type") = some (DCT "IMT")
      · by_cases hm : object_value g distribution (DCAT "mediaType") = ""
        · simp [ht, hm]
        · simp [ht, hm]
      · by_cases hm : object_value g distribution (DCAT "mediaType") = ""
        · simp [ht, hm]
        · simp [ht, hm]
    | bnode k =>
      by_cases ht : object g (Node.bnode k) (RDFNS "type") = some (DCT "IMT")
      · by_cases hm : object_value g distribution (DCAT "mediaType") = ""
        · simp [ht, hm]
        · simp [ht, hm]
      · by_cases hm : object_value g distribution (DCAT "mediaType") = ""
        · simp [ht, hm]
        · simp [ht, hm]

/-- C6: for every subject and predicate, the first interval object in
iteration order with a truthy schema.org startDate or endDate decides
the result immediately; when the interval objects are non empty and
none has schema.org data, the W3C hasBeginning/hasEnd values of the
last interval object iterated are the ones returned. -/
theorem C6_time_interval (g : Graph) (s p : Node) :
    (∀ l1 i l2, objects g s p = l1 ++ i :: l2 →
      (∀ j ∈ l1, ¬ schemaHas g j) → schemaHas g i →
      time_interval g s p =
        (some (object_value g i (SCHEMA "startDate")),
         some (object_value g i (SCHEMA "endDate"))))
    ∧ (∀ (h : objects g s p ≠ []),
        (∀ j ∈ objects g s p, ¬ schemaHas g j) →
        time_interval g s p = w3cPair g ((objects g s p).getLast h)) := by
  constructor
  · intro l1 i l2 hobj hskip hi
    rw [time_interval, hobj]
    exact timeIntervalLoop_first_schema g l1 i l2 (none, none) hskip hi
  · intro h hall
    rw [time_interval]
    exact timeIntervalLoop_all_skip g (objects g s p) (none, none) hall h

/-- Witness for C6: two interval objects with only W3C data; the values
of the second (last) one are returned. -/
theorem C6_witness :
    time_interval gti dsRef (DCT "temporal") = (some "2002", some "") := by
  have h := (C6_time_interval gti dsRef (DCT "temporal")).2 (by decide)
    (by decide)
  exact h.trans (by decide)

/-- C8 counterexample: with no publisher object at all the returned
dict is empty (none of the six keys is present), contradicting the
claim that the keys are present in that case as well. -/
theorem C8_counterexample :
    publisher ([] : Graph) dsRef (DCT "publisher") =
      ⟨none, none, none, none, none, none⟩ := by
  decide

/-- C8 amended: when the subject has at least one publisher object, the
returned dict has all six keys, sourced from the last agent iterated
(with empty strings for absent sub fields, as publisherOfAgent shows),
and the uri value is non empty only when that agent node is an IRI
reference; with no publisher object the returned dict is empty. -/
theorem C8_amended (g : Graph) (s p : Node) :
    (objects g s p = [] →
      publisher g s p = ⟨none, none, none, none, none, none⟩)
    ∧ ∀ (h : objects g s p ≠ []),
        publisher g s p = publisherOfAgent g ((objects g s p).getLast h)
        ∧ ((publisher g s p).uri.getD "" ≠ "" →
            isIRI ((objects g s p).getLast h) = true) := by
  constructor
  · intro h
    rw [publisher, h]
    rfl
  · intro h
    have heq : publisher g s p
        = publisherOfAgent g ((objects g s p).getLast h) := by
      rw [publisher]
      exact foldl_replace_last (publisherOfAgent g) _ (objects g s p) h
    refine ⟨heq, ?_⟩
    intro huri
    cases hx : isIRI ((objects g s p).getLast h) with
    | true => rfl
    | false =>
      rw [heq, publisherOfAgent] at huri
      simp [hx] at huri

/-- Witness for C8 at a graph with one blank node agent carrying only a
name: all six keys are present, uri is the empty string. -/
theorem C8_witness :
    publisher gpub dsRef (DCT "publisher") =
      ⟨some "", some "Org", some "", some "", some "", some ""⟩ := by
  have h := ((C8_amended gpub dsRef (DCT "publisher")).2 (by decide)).1
  exact h.trans (by decide)

/-- C2: parse_dataset fails (and returns no record at all) exactly when
some theme object has a truthy identifier that the group register does
not resolve; in particular no other missing external data makes the
parse fatal. -/
theorem C2_theme_fatal (cfg : ParseConfig) (g : Graph) (d : ParsedRecord)
    (ref : Node) :
    isError (parse_dataset cfg g d ref) = true ↔
      ∃ t ∈ objects g ref (DCAT "theme"),
        object_value g t (DCT "identifier") ≠ ""
          ∧ cfg.group_register (object_value g t (DCT "identifier")) = none := by
  rw [← themeGroups_error_iff g cfg.group_register
    (objects g ref (DCAT "theme"))]
  simp only [parse_dataset]
  cases hth : themeGroups g cfg.group_register (objects g ref (DCAT "theme")) with
  | error e => simp [isError]
  | ok gs =>
    by_cases hc : cfg.compatibility_mode
    · obtain ⟨l', hl⟩ := compatFold_ok cfg.jsonListLoads
        (extrasLoop g ref extras_table) (extras1_key_ne_language g ref)
      simp [hc, hl, isError]
    · simp [hc, isError]

/-- Witness for C2: a theme with identifier gX and an empty group
register make the parse fail. -/
theorem C2_witness :
    isError (parse_dataset cfg0 gtheme emptyRecord dsRef) = true := by
  exact (C2_theme_fatal cfg0 gtheme emptyRecord dsRef).mpr
    ⟨.bnode 5, by decide, by decide, rfl⟩

/-- C9: whenever parse_dataset returns a record (that is, the theme
lookups succeeded and so did the rest of the pipeline), the record has
the tags, extras, resources and groups keys all present, each bound to
a list, compatibility mode included. -/
theorem C9_collections (cfg : ParseConfig) (g : Graph) (d : ParsedRecord)
    (ref : Node) (r : ParsedRecord)
    (h : parse_dataset cfg g d ref = .ok r) :
    r.tags.isSome ∧ r.extras.isSome ∧ r.resources.isSome
      ∧ r.groups.isSome := by
  obtain ⟨h1, h2, h3, h4⟩ := parse_dataset_ok_shape cfg g d ref r h
  exact ⟨by rw [h1]; rfl, h2, h3, h4⟩

/-- Witness for C9 on the empty graph with compatibility mode on. -/
theorem C9_witness :
    ∃ r, parse_dataset cfgCompat ([] : Graph) emptyRecord dsRef = .ok r
      ∧ r.tags.isSome ∧ r.extras.isSome ∧ r.resources.isSome
      ∧ r.groups.isSome := by
  cases hp : parse_dataset cfgCompat ([] : Graph) emptyRecord dsRef with
  | error e =>
    have hfalse : isError
        (parse_dataset cfgCompat ([] : Graph) emptyRecord dsRef) = false := by
      decide
    rw [hp] at hfalse
    exact absurd hfalse (by simp [isError])
  | ok r =>
    exact ⟨r, rfl, C9_collections cfgCompat [] emptyRecord dsRef r hp⟩

/-- C3 counterexample: the keywords a,b and c do not parse into the
tags a, b, c in that order (the actual order is c, a, b, because the
split fragments are appended after the remaining keywords). -/
theorem C3_counterexample :
    tagsOf (parse_dataset cfg0 gkw emptyRecord dsRef) ≠
      some [⟨"a"⟩, ⟨"b"⟩, ⟨"c"⟩] := by
  decide

/-- C3 amended: every comma containing keyword is removed and its
trimmed fragments are appended at the end, so the keywords a,b and c
produce the tags c, a, b: non split keywords first in original order,
then the split fragments in split order. -/
theorem C3_amended :
    (∀ cfg g d ref r, parse_dataset cfg g d ref = .ok r →
      r.tags = some
        ((((object_value_list g ref (DCAT "keyword")).filter
            (fun k => ¬ hasComma k))
          ++ flatSplit ((object_value_list g ref (DCAT "keyword")).filter
            (fun k => hasComma k))).map Tag.mk))
    ∧ tagsOf (parse_dataset cfg0 gkw emptyRecord dsRef) =
        some [⟨"c"⟩, ⟨"a"⟩, ⟨"b"⟩] := by
  constructor
  · intro cfg g d ref r h
    have h1 := (parse_dataset_ok_shape cfg g d ref r h).1
    rw [h1, processKeywords_eq]
  · decide

/-- Witness for C3 on the two keyword graph. -/
theorem C3_witness :
    ∃ r, parse_dataset cfg0 gkw emptyRecord dsRef = .ok r
      ∧ r.tags = some
        ((((object_value_list gkw dsRef (DCAT "keyword")).filter
            (fun k => ¬ hasComma k))
          ++ flatSplit ((object_value_list gkw dsRef (DCAT "keyword")).filter
            (fun k => hasComma k))).map Tag.mk) := by
  cases hp : parse_dataset cfg0 gkw emptyRecord dsRef with
  | error e =>
    have hfalse : isError (parse_dataset cfg0 gkw emptyRecord dsRef) = false := by
      decide
    rw [hp] at hfalse
    exact absurd hfalse (by simp [isError])
  | ok r =>
    exact ⟨r, rfl, C3_amended.1 cfg0 gkw emptyRecord dsRef r hp⟩

/-- C1 counterexample: a record whose only resource has size 0 comes
back from the round trip with no size at all (0 is falsy, so the
byteSize guard drops it), and a record whose language extra holds None
makes ckan_to_iaest raise, so the round trip does not even produce a
record. -/
theorem C1_counterexample :
    (match ckan_to_iaest exC1_sizeZero with
     | .ok d => (iaest_to_ckan d).resources.map Resource.size
     | .error _ => []) = [none]
    ∧ exC1_sizeZero.resources.map Resource.size = [some (.intV 0)]
    ∧ isError (ckan_to_iaest exC1_langNone) = true := by
  exact ⟨by decide, by decide, by decide⟩

/-- C1 amended: for every record whose extras carry only recognised
keys, whose language extra (if any) holds a string, and whose resource
sizes are absent or non zero ints, ckan_to_iaest followed by
iaest_to_ckan preserves title, notes, url, the tag names, and each
resource url, format and size; and the literal example source yields
exactly the claimed resource dict. -/
theorem C1_round_trip :
    (∀ r : CkanRecord,
      (∀ e ∈ r.extras, e.key ∈ recognizedExtraKeys) →
      (∀ e ∈ r.extras, e.key = "language" → e.value ≠ none) →
      (∀ res ∈ r.resources, sizeOkB res.size = true) →
      ∃ d, ckan_to_iaest r = .ok d
        ∧ (iaest_to_ckan d).title = r.title
        ∧ (iaest_to_ckan d).notes = r.notes
        ∧ (iaest_to_ckan d).url = r.url
        ∧ (iaest_to_ckan d).tags.map Tag.name = r.tags.map Tag.name
        ∧ List.Forall₂
            (fun a b => a.url = b.url ∧ a.format = b.format ∧ a.size = b.size)
            (iaest_to_ckan d).resources r.resources)
    ∧ (iaest_to_ckan exC1_src).resources =
        [{ name := some "D", description := none, url := some "http://x",
           format := none, size := some (.intV 120) }] := by
  constructor
  · intro r _hrec hlang hsize
    obtain ⟨d1, hd1⟩ := ckanFold_ok r.extras (initIaest r) hlang
    obtain ⟨f1, f2, f3, f4, _f5⟩ := ckanFold_fields r.extras (initIaest r) d1 hd1
    obtain ⟨m1, m2, m3, m4⟩ := maintainerFallback_fields d1 r
    refine ⟨{ maintainerFallback d1 r with
              distribution := r.resources.map resourceToDistribution },
            ?_, ?_, ?_, ?_, ?_, ?_⟩
    · rw [ckan_to_iaest, hd1]
    · show (maintainerFallback d1 r).title = r.title
      rw [m1, f1]
      rfl
    · show (maintainerFallback d1 r).description = r.notes
      rw [m2, f2]
      rfl
    · show (maintainerFallback d1 r).landingPage = r.url
      rw [m3, f3]
      rfl
    · show ((maintainerFallback d1 r).keyword.map Tag.mk).map Tag.name
        = r.tags.map Tag.name
      rw [m4, f4]
      show ((r.tags.map Tag.name).map Tag.mk).map Tag.name = r.tags.map Tag.name
      simp [List.map_map, Function.comp]
    · show List.Forall₂ _
        ((r.resources.map resourceToDistribution).map distributionToResource)
        r.resources
      exact roundTripResources r.resources hsize
  · decide

/-- Witness for C1 at a concrete record with recognised extras, a
string valued language extra and one resource of size 5. -/
theorem C1_witness :
    ∃ d, ckan_to_iaest exC1_good = .ok d
      ∧ (iaest_to_ckan d).title = exC1_good.title
      ∧ (iaest_to_ckan d).notes = exC1_good.notes
      ∧ (iaest_to_ckan d).url = exC1_good.url
      ∧ (iaest_to_ckan d).tags.map Tag.name = exC1_good.tags.map Tag.name
      ∧ List.Forall₂
          (fun a b => a.url = b.url ∧ a.format = b.format ∧ a.size = b.size)
          (iaest_to_ckan d).resources exC1_good.resources := by
  exact C1_round_trip.1 exC1_good (by decide) (by decide) (by decide)

end Iaest
